import Mathlib

/-!
Shallow embedding of the company/membership layer of the jobs-app repository
(`src/convex/schema.ts` and `src/convex/lib/companies.ts`).

The document store is modelled as explicit lists of rows; document ids are
natural numbers; timestamps and numeric limits are integers.  A query or
mutation handler becomes a pure function over the database state, returning
`Except ConvexError _` where the source can throw.  The Convex `.unique()`
combinator (return the single match, `null` on none, throw on several) is
modelled by `uniqueResult`.  The identity collaborator (`./auth`, not part of
the provided sources) is modelled from the spec as an optional viewer passed
in explicitly.
-/

namespace JobsApp

/-- Role enumeration of `companyMembers.role` in `schema.ts`. -/
inductive Role
  | owner
  | admin
  | recruiter
  | member
deriving DecidableEq, Repr

/-- Status enumeration of `companyMembers.status` in `schema.ts`. -/
inductive MemberStatus
  | pending
  | active
  | removed
deriving DecidableEq, Repr

/-- Plan enumeration of `companies.plan` in `schema.ts`. -/
inductive Plan
  | free
  | starter
  | growth
deriving DecidableEq, Repr

/-- A row of the `users` table (only the fields this layer reads). -/
structure User where
  _id : Nat
  clerkUserId : String
deriving DecidableEq, Repr

/-- A row of the `companies` table (`schema.ts`): `plan`, `seatLimit` and
`jobLimit` are optional there. -/
structure Company where
  _id : Nat
  clerkOrgId : String
  name : String
  plan : Option Plan
  seatLimit : Option Int
  jobLimit : Option Int
  createdAt : Int
  updatedAt : Int
deriving DecidableEq, Repr

/-- A row of the `companyMembers` table (`schema.ts`). -/
structure Membership where
  companyId : Nat
  userId : Nat
  role : Role
  status : MemberStatus
  invitedAt : Int
  updatedAt : Int
deriving DecidableEq, Repr

/-- A row of the externally-defined `jobs` collection: the usage queries only
read `companyId` and the `isActive` flag. -/
structure Job where
  companyId : Nat
  isActive : Bool
deriving DecidableEq, Repr

/-- The database state.  `jobs = none` models the `jobs` collection being
absent from the deployment (its access throws, caught by the handlers'
try/catch).  `nextId` is the fresh document id the store would assign on the
next insert. -/
structure DB where
  companies : List Company
  companyMembers : List Membership
  jobs : Option (List Job)
  nextId : Nat
deriving DecidableEq, Repr

/-- The errors thrown in `companies.ts` (as `ConvexError` with a message
string), plus the failure of the identity collaborator and of `.unique()`. -/
inductive ConvexError
  | notFound
  | accessDenied
  | insufficientRole
  | unauthenticated
  | uniqueViolation
deriving DecidableEq, Repr

/-- The spec's error taxonomy (section 7) groups "no active membership" and
"role not in allowed set" into the single AccessDenied class. -/
def ConvexError.isAccessDenied : ConvexError → Bool
  | .accessDenied => true
  | .insufficientRole => true
  | _ => false

/-- Convex's `.unique()`: the single result, `none` when the query matched
nothing, an error when it matched more than one row. -/
def uniqueResult {α : Type} : List α → Except ConvexError (Option α)
  | [] => .ok none
  | [a] => .ok (some a)
  | _ => .error .uniqueViolation

/-- The indexed equality lookup
`query("companyMembers").withIndex("by_companyId_userId", eq companyId, eq userId)`. -/
def membersByPair (db : DB) (companyId userId : Nat) : List Membership :=
  db.companyMembers.filter (fun m => m.companyId == companyId && m.userId == userId)

/-- The indexed scan
`query("companyMembers").withIndex("by_companyId_userId", eq companyId)`. -/
def membersByCompany (db : DB) (companyId : Nat) : List Membership :=
  db.companyMembers.filter (fun m => m.companyId == companyId)

/-- The indexed lookup `query("companies").withIndex("by_clerkOrgId", eq clerkOrgId)`. -/
def companiesByOrg (db : DB) (clerkOrgId : String) : List Company :=
  db.companies.filter (fun c => c.clerkOrgId == clerkOrgId)

/-- `ctx.db.get(companyId)`: primary-key fetch from the `companies` table. -/
def dbGet (db : DB) (companyId : Nat) : Option Company :=
  db.companies.find? (fun c => c._id == companyId)

/-- Modelled from the spec: `getViewerUser` (from the `./auth` module, absent
from the provided sources) resolves the calling session to a local user
record, or to nothing when the caller is unauthenticated.  The session is
modelled as the optional viewer itself. -/
def getViewerUser (viewer : Option User) : Option User :=
  viewer

/-- Modelled from the spec: `requireViewerUser` (from the `./auth` module,
absent from the provided sources) returns the authenticated caller's user
record and fails when there is none. -/
def requireViewerUser (viewer : Option User) : Except ConvexError User :=
  match viewer with
  | none => .error .unauthenticated
  | some u => .ok u

/-- `requireCompany` (companies.ts lines 13-20). -/
def requireCompany (db : DB) (companyId : Nat) : Except ConvexError Company :=
  match dbGet db companyId with
  | none => .error .notFound
  | some company => .ok company

/-- `requireActiveMembership` (companies.ts lines 22-38). -/
def requireActiveMembership (db : DB) (companyId userId : Nat) :
    Except ConvexError Membership :=
  match uniqueResult (membersByPair db companyId userId) with
  | .error e => .error e
  | .ok none => .error .accessDenied
  | .ok (some membership) =>
      if membership.status == .active then .ok membership
      else .error .accessDenied

/-- `requireCompanyRole` (companies.ts lines 173-184). -/
def requireCompanyRole (db : DB) (companyId userId : Nat)
    (allowedRoles : List Role) : Except ConvexError Membership :=
  match requireActiveMembership db companyId userId with
  | .error e => .error e
  | .ok membership =>
      if allowedRoles.contains membership.role then .ok membership
      else .error .insufficientRole

/-- The projection returned by `getMyCompanyContext`. -/
structure CompanyContext where
  companyId : Nat
  companyName : String
  role : Role
  seatLimit : Option Int
  jobLimit : Option Int
deriving DecidableEq, Repr

/-- `getMyCompanyContext` (companies.ts lines 42-72). -/
def getMyCompanyContext (viewer : Option User) (db : DB) (clerkOrgId : String) :
    Except ConvexError (Option CompanyContext) :=
  match getViewerUser viewer with
  | none => .ok none
  | some u =>
      match uniqueResult (companiesByOrg db clerkOrgId) with
      | .error e => .error e
      | .ok none => .ok none
      | .ok (some company) =>
          match uniqueResult (membersByPair db company._id u._id) with
          | .error e => .error e
          | .ok membership =>
              .ok (some
                { companyId := company._id
                  companyName := company.name
                  role := (membership.map (fun m => m.role)).getD .member
                  seatLimit := company.seatLimit
                  jobLimit := company.jobLimit })

/-- The four-field count structure returned by the usage queries. -/
structure UsageCounts where
  activeMemberCount : Nat
  invitedMemberCount : Nat
  activeJobCount : Nat
  totalJobCount : Nat
deriving DecidableEq, Repr

/-- `getCompanyUsage` (companies.ts lines 74-102).  The try/catch around the
`jobs` query becomes the match on `db.jobs`: when the collection is absent the
counts stay at their initial zeros. -/
def getCompanyUsage (db : DB) (companyId : Nat) : UsageCounts :=
  let members := membersByCompany db companyId
  let activeMemberCount := (members.filter (fun m => m.status == .active)).length
  let invitedMemberCount := (members.filter (fun m => !(m.status == .active))).length
  match db.jobs with
  | none =>
      { activeMemberCount := activeMemberCount
        invitedMemberCount := invitedMemberCount
        activeJobCount := 0
        totalJobCount := 0 }
  | some allJobs =>
      let companyJobs := allJobs.filter (fun j => j.companyId == companyId)
      { activeMemberCount := activeMemberCount
        invitedMemberCount := invitedMemberCount
        activeJobCount := (companyJobs.filter (fun j => j.isActive)).length
        totalJobCount := companyJobs.length }

/-- `getMyCompanyUsage` (companies.ts lines 104-135).  The source replicates
the body of `getCompanyUsage` after the two guards; so does this embedding. -/
def getMyCompanyUsage (viewer : Option User) (db : DB) (companyId : Nat) :
    Except ConvexError UsageCounts :=
  match requireViewerUser viewer with
  | .error e => .error e
  | .ok u =>
      match requireActiveMembership db companyId u._id with
      | .error e => .error e
      | .ok _ =>
          let members := membersByCompany db companyId
          let activeMemberCount := (members.filter (fun m => m.status == .active)).length
          let invitedMemberCount := (members.filter (fun m => !(m.status == .active))).length
          match db.jobs with
          | none =>
              .ok { activeMemberCount := activeMemberCount
                    invitedMemberCount := invitedMemberCount
                    activeJobCount := 0
                    totalJobCount := 0 }
          | some allJobs =>
              let companyJobs := allJobs.filter (fun j => j.companyId == companyId)
              .ok { activeMemberCount := activeMemberCount
                    invitedMemberCount := invitedMemberCount
                    activeJobCount := (companyJobs.filter (fun j => j.isActive)).length
                    totalJobCount := companyJobs.length }

/-- `syncCompanyPlan` (companies.ts lines 137-171).  `now` is the value of
`Date.now()` at the start of the handler, passed in explicitly. -/
def syncCompanyPlan (db : DB) (clerkOrgId : String) (plan : Plan)
    (seatLimit jobLimit : Int) (now : Int) : Except ConvexError DB :=
  match uniqueResult (companiesByOrg db clerkOrgId) with
  | .error e => .error e
  | .ok (some company) =>
      .ok { db with
        companies := db.companies.map (fun c =>
          if c._id == company._id then
            { c with
              plan := some plan
              seatLimit := some seatLimit
              jobLimit := some jobLimit
              updatedAt := now }
          else c) }
  | .ok none =>
      .ok { db with
        companies := db.companies ++
          [{ _id := db.nextId
             clerkOrgId := clerkOrgId
             name := ""
             plan := some plan
             seatLimit := some seatLimit
             jobLimit := some jobLimit
             createdAt := now
             updatedAt := now }]
        nextId := db.nextId + 1 }

/-- A sample database: one company ("org1") with three active and two
removed memberships, plus one membership of another company, no `jobs`
collection. -/
def sampleDB : DB :=
  { companies := [⟨1, "org1", "Acme", some .free, some 5, some 3, 0, 0⟩]
    companyMembers :=
      [ ⟨1, 10, .owner, .active, 0, 0⟩
      , ⟨1, 11, .admin, .active, 0, 0⟩
      , ⟨1, 12, .member, .active, 0, 0⟩
      , ⟨1, 13, .member, .removed, 0, 0⟩
      , ⟨1, 14, .recruiter, .removed, 0, 0⟩
      , ⟨2, 10, .owner, .active, 0, 0⟩ ]
    jobs := none
    nextId := 100 }

/-- A sample database with a single active membership whose role is
"recruiter". -/
def roleDB : DB :=
  { companies := [⟨1, "orgr", "RoleCo", some .starter, some 9, some 9, 0, 0⟩]
    companyMembers := [⟨1, 20, .recruiter, .active, 0, 0⟩]
    jobs := none
    nextId := 60 }

/-- A sample database with a single membership whose status is "pending" and
whose stored role is "admin". -/
def pendingDB : DB :=
  { companies := [⟨1, "orgp", "PendingCo", none, none, none, 0, 0⟩]
    companyMembers := [⟨1, 30, .admin, .pending, 0, 0⟩]
    jobs := none
    nextId := 50 }

/-- Characterization of the indexed (companyId, userId) lookup. -/
lemma mem_membersByPair (db : DB) (c u : Nat) (m : Membership) :
    m ∈ membersByPair db c u ↔
      m ∈ db.companyMembers ∧ m.companyId = c ∧ m.userId = u := by
  simp [membersByPair, List.mem_filter, and_assoc]

/-- `requireActiveMembership` succeeds with `m` exactly when the indexed
lookup finds `m` alone and its status is active. -/
lemma requireActiveMembership_eq_ok_iff (db : DB) (c u : Nat) (m : Membership) :
    requireActiveMembership db c u = .ok m ↔
      membersByPair db c u = [m] ∧ m.status = .active := by
  unfold requireActiveMembership
  rcases h : membersByPair db c u with _ | ⟨m0, _ | ⟨m1, l⟩⟩
  · simp [uniqueResult]
  · by_cases hs : m0.status = MemberStatus.active
    · simp only [uniqueResult, hs, beq_self_eq_true, if_true]
      constructor
      · rintro ⟨rfl⟩
        exact ⟨rfl, hs⟩
      · rintro ⟨hm, _⟩
        cases hm
        rfl
    · simp only [uniqueResult]
      rw [if_neg (by simpa using hs)]
      constructor
      · rintro ⟨⟩
      · rintro ⟨hm, hms⟩
        cases hm
        exact absurd hms hs
  · simp [uniqueResult]

/-- With at most one matching row and no active match,
`requireActiveMembership` fails with the access-denied error. -/
lemma requireActiveMembership_eq_error_of_none (db : DB) (c u : Nat)
    (hwf : (membersByPair db c u).length ≤ 1)
    (hno : ∀ m ∈ membersByPair db c u, m.status ≠ .active) :
    requireActiveMembership db c u = .error .accessDenied := by
  unfold requireActiveMembership
  rcases h : membersByPair db c u with _ | ⟨m0, _ | ⟨m1, l⟩⟩
  · simp [uniqueResult]
  · have hm0 : m0.status ≠ .active := hno m0 (by simp [h])
    simp only [uniqueResult]
    rw [if_neg (by simpa using hm0)]
  · rw [h] at hwf
    simp at hwf

/-- With at most one matching row, the only error `requireActiveMembership`
can produce is the access-denied one. -/
lemma requireActiveMembership_error_cases (db : DB) (c u : Nat)
    (hwf : (membersByPair db c u).length ≤ 1) (e : ConvexError)
    (he : requireActiveMembership db c u = .error e) : e = .accessDenied := by
  unfold requireActiveMembership at he
  rcases h : membersByPair db c u with _ | ⟨m0, _ | ⟨m1, l⟩⟩
  · rw [h] at he
    simp [uniqueResult] at he
    exact he.symm
  · rw [h] at he
    simp only [uniqueResult] at he
    by_cases hs : m0.status = MemberStatus.active
    · rw [if_pos (by simpa using hs)] at he
      cases he
    · rw [if_neg (by simpa using hs)] at he
      cases he
      rfl
  · rw [h] at hwf
    simp at hwf

/-- A single matching membership that is not active makes
`requireActiveMembership` fail with the access-denied error. -/
lemma requireActiveMembership_of_single_not_active (db : DB) (c u : Nat)
    (m : Membership) (hm : membersByPair db c u = [m])
    (hs : m.status ≠ .active) :
    requireActiveMembership db c u = .error .accessDenied := by
  apply requireActiveMembership_eq_error_of_none
  · rw [hm]
    simp
  · intro x hx
    rw [hm] at hx
    simp at hx
    rw [hx]
    exact hs

/-- `syncCompanyPlan` on an org with no company row appends a fresh row. -/
lemma syncCompanyPlan_insert (db : DB) (org : String) (p : Plan) (s j t : Int)
    (h : companiesByOrg db org = []) :
    syncCompanyPlan db org p s j t = .ok { db with
      companies := db.companies ++
        [{ _id := db.nextId
           clerkOrgId := org
           name := ""
           plan := some p
           seatLimit := some s
           jobLimit := some j
           createdAt := t
           updatedAt := t }]
      nextId := db.nextId + 1 } := by
  unfold syncCompanyPlan
  rw [h]
  rfl

/-- `syncCompanyPlan` on an org whose lookup returns a single row patches the
rows carrying that row's document id. -/
lemma syncCompanyPlan_patch (db : DB) (org : String) (p : Plan) (s j t : Int)
    (c : Company) (h : companiesByOrg db org = [c]) :
    syncCompanyPlan db org p s j t = .ok { db with
      companies := db.companies.map (fun x =>
        if x._id == c._id then
          { x with plan := some p
                   seatLimit := some s
                   jobLimit := some j
                   updatedAt := t }
        else x) } := by
  unfold syncCompanyPlan
  rw [h]
  rfl

/-- Filtering by org commutes with mapping a function that does not change
the `clerkOrgId` field. -/
lemma filter_org_map (l : List Company) (org : String) (g : Company → Company)
    (hg : ∀ x, (g x).clerkOrgId = x.clerkOrgId) :
    (l.map g).filter (fun c => c.clerkOrgId == org) =
      (l.filter (fun c => c.clerkOrgId == org)).map g := by
  rw [List.filter_map]
  congr 1
  apply List.filter_congr
  intro x _
  simp only [Function.comp_apply, hg x]

/-- C1: for every database state with at most one membership row per
(companyId, userId) pair, `requireActiveMembership` returns a row `m` iff `m`
is the membership row for that pair and its status is "active"; when no such
active row exists it fails with the AccessDenied error. -/
theorem requireActiveMembership_active_iff (db : DB) (companyId userId : Nat)
    (hwf : (membersByPair db companyId userId).length ≤ 1) :
    (∀ m : Membership,
        requireActiveMembership db companyId userId = .ok m ↔
          (m ∈ db.companyMembers ∧ m.companyId = companyId ∧ m.userId = userId ∧
            m.status = .active)) ∧
    ((¬ ∃ m, m ∈ db.companyMembers ∧ m.companyId = companyId ∧ m.userId = userId ∧
          m.status = .active) →
      requireActiveMembership db companyId userId = .error .accessDenied) := by
  constructor
  · intro m
    rw [requireActiveMembership_eq_ok_iff]
    constructor
    · rintro ⟨hl, hs⟩
      have hm : m ∈ membersByPair db companyId userId := by rw [hl]; simp
      rw [mem_membersByPair] at hm
      exact ⟨hm.1, hm.2.1, hm.2.2, hs⟩
    · rintro ⟨h1, h2, h3, h4⟩
      have hm : m ∈ membersByPair db companyId userId :=
        (mem_membersByPair db companyId userId m).mpr ⟨h1, h2, h3⟩
      have hl : membersByPair db companyId userId = [m] := by
        rcases hmm : membersByPair db companyId userId with _ | ⟨a, _ | ⟨b, t⟩⟩
        · rw [hmm] at hm; cases hm
        · rw [hmm] at hm
          simp at hm
          rw [hm]
        · rw [hmm] at hwf; simp at hwf
      exact ⟨hl, h4⟩
  · intro hno
    apply requireActiveMembership_eq_error_of_none db companyId userId hwf
    intro m hm hs
    rw [mem_membersByPair] at hm
    exact hno ⟨m, hm.1, hm.2.1, hm.2.2, hs⟩

/-- Concrete-input witness for the preceding theorem. -/
theorem requireActiveMembership_active_iff_witness :
    (membersByPair sampleDB 1 10).length ≤ 1 ∧
      requireActiveMembership sampleDB 1 10 = .ok ⟨1, 10, .owner, .active, 0, 0⟩ :=
  ⟨by decide,
    ((requireActiveMembership_active_iff sampleDB 1 10 (by decide)).1 _).mpr
      (by decide)⟩

/-- C9: `requireCompany` fails with the NotFound error when no company row
carries the given id, and returns exactly the row that carries it when one
exists. -/
theorem requireCompany_spec (db : DB) (companyId : Nat) (c : Company) :
    ((∀ x ∈ db.companies, x._id ≠ companyId) →
      requireCompany db companyId = .error .notFound) ∧
    ((∀ x ∈ db.companies, x._id = companyId → x = c) →
      c ∈ db.companies → c._id = companyId →
      requireCompany db companyId = .ok c) := by
  constructor
  · intro hno
    unfold requireCompany dbGet
    rw [List.find?_eq_none.mpr]
    intro x hx
    simpa using hno x hx
  · intro hkey hc hcid
    unfold requireCompany dbGet
    rcases hf : db.companies.find? (fun x => x._id == companyId) with _ | x
    · exfalso
      rw [List.find?_eq_none] at hf
      exact hf c hc (by simpa using hcid)
    · have hx1 := List.find?_some hf
      have hx2 := List.mem_of_find?_eq_some hf
      simp only [beq_iff_eq] at hx1
      rw [hf, hkey x hx2 hx1]

/-- Concrete-input witness for the preceding theorem. -/
theorem requireCompany_spec_witness :
    requireCompany sampleDB 999 = .error .notFound ∧
      requireCompany sampleDB 1 = .ok ⟨1, "org1", "Acme", some .free, some 5, some 3, 0, 0⟩ :=
  ⟨(requireCompany_spec sampleDB 999 ⟨1, "org1", "Acme", some .free, some 5, some 3, 0, 0⟩).1
      (by decide),
    (requireCompany_spec sampleDB 1 ⟨1, "org1", "Acme", some .free, some 5, some 3, 0, 0⟩).2
      (by decide) (by decide) (by decide)⟩

/-- C3: `requireCompanyRole` returns a membership iff `requireActiveMembership`
returns it and its role is in `allowedRoles`; every failure is in the
AccessDenied error class (which, per the spec's taxonomy, covers both the
no-active-membership and the role-not-allowed failures). -/
theorem requireCompanyRole_spec (db : DB) (companyId userId : Nat)
    (allowedRoles : List Role)
    (hwf : (membersByPair db companyId userId).length ≤ 1) :
    (∀ m : Membership,
        requireCompanyRole db companyId userId allowedRoles = .ok m ↔
          (requireActiveMembership db companyId userId = .ok m ∧
            m.role ∈ allowedRoles)) ∧
    (∀ e, requireCompanyRole db companyId userId allowedRoles = .error e →
        e.isAccessDenied = true) := by
  constructor
  · intro m
    unfold requireCompanyRole
    cases h : requireActiveMembership db companyId userId with
    | error e => simp
    | ok m0 =>
      by_cases hr : allowedRoles.contains m0.role
      · simp only [hr, if_true]
        constructor
        · rintro ⟨rfl⟩
          exact ⟨rfl, by simpa using hr⟩
        · rintro ⟨hok, _⟩
          cases hok
          rfl
      · simp only [hr, if_false, Bool.false_eq_true]
        constructor
        · rintro ⟨⟩
        · rintro ⟨hok, hmem⟩
          cases hok
          exact absurd (by simpa using hmem) hr
  · intro e he
    unfold requireCompanyRole at he
    cases h : requireActiveMembership db companyId userId with
    | error e0 =>
      rw [h] at he
      cases he
      rw [requireActiveMembership_error_cases db companyId userId hwf e h]
      rfl
    | ok m0 =>
      rw [h] at he
      by_cases hr : allowedRoles.contains m0.role
      · simp only [hr, if_true] at he
        cases he
      · simp only [hr, if_false, Bool.false_eq_true] at he
        cases he
        rfl

/-- Concrete-input witness for the preceding theorem. -/
theorem requireCompanyRole_spec_witness :
    requireCompanyRole roleDB 1 20 [.owner, .admin] = .error .insufficientRole ∧
      ConvexError.isAccessDenied .insufficientRole = true :=
  ⟨rfl,
    (requireCompanyRole_spec roleDB 1 20 [.owner, .admin] (by decide)).2
      .insufficientRole rfl⟩

/-- C2: `getCompanyUsage` counts the company's memberships with status
"active" as `activeMemberCount` and those with status "pending" or "removed"
as `invitedMemberCount`; when the jobs collection is absent both job counts
are zero and no error is raised; with 3 active and 2 removed memberships and
no job collection it returns `{3, 2, 0, 0}`. -/
theorem getCompanyUsage_spec (db : DB) (companyId : Nat) :
    ((getCompanyUsage db companyId).activeMemberCount =
        (db.companyMembers.filter
          (fun m => m.companyId == companyId && m.status == .active)).length ∧
      (getCompanyUsage db companyId).invitedMemberCount =
        (db.companyMembers.filter
          (fun m => m.companyId == companyId &&
            (m.status == .pending || m.status == .removed))).length) ∧
    (db.jobs = none →
      (getCompanyUsage db companyId).activeJobCount = 0 ∧
      (getCompanyUsage db companyId).totalJobCount = 0) ∧
    getCompanyUsage sampleDB 1 =
      { activeMemberCount := 3, invitedMemberCount := 2,
        activeJobCount := 0, totalJobCount := 0 } := by
  refine ⟨⟨?_, ?_⟩, ?_, by decide⟩
  · unfold getCompanyUsage membersByCompany
    cases hj : db.jobs <;>
      simp [List.filter_filter, Bool.and_comm]
  · unfold getCompanyUsage membersByCompany
    cases hj : db.jobs <;>
      · simp only [List.filter_filter]
        rw [List.filter_congr]
        intro m _
        cases m.status <;> simp
  · intro hj
    unfold getCompanyUsage
    rw [hj]
    exact ⟨rfl, rfl⟩

/-- Concrete-input witness for the preceding theorem. -/
theorem getCompanyUsage_spec_witness :
    sampleDB.jobs = none ∧
      ((getCompanyUsage sampleDB 1).activeJobCount = 0 ∧
        (getCompanyUsage sampleDB 1).totalJobCount = 0) :=
  ⟨rfl, (getCompanyUsage_spec sampleDB 1).2.1 rfl⟩

/-- C4: `getMyCompanyContext` returns null for an unauthenticated caller,
null when no company row matches the `clerkOrgId`, and, for an authenticated
caller with no membership row in the matched company, a projection with role
"member" and the company's id, name, seatLimit and jobLimit. -/
theorem getMyCompanyContext_spec (db : DB) (org : String) (u : User) (c : Company) :
    getMyCompanyContext none db org = .ok none ∧
    (companiesByOrg db org = [] → getMyCompanyContext (some u) db org = .ok none) ∧
    (companiesByOrg db org = [c] → membersByPair db c._id u._id = [] →
      getMyCompanyContext (some u) db org =
        .ok (some { companyId := c._id, companyName := c.name, role := .member,
                    seatLimit := c.seatLimit, jobLimit := c.jobLimit })) := by
  refine ⟨rfl, ?_, ?_⟩
  · intro h
    unfold getMyCompanyContext getViewerUser
    rw [h]
    rfl
  · intro hc hm
    unfold getMyCompanyContext getViewerUser
    rw [hc]
    simp only [uniqueResult]
    rw [hm]
    rfl

/-- Concrete-input witness for the preceding theorem. -/
theorem getMyCompanyContext_spec_witness :
    companiesByOrg sampleDB "org1" =
        [⟨1, "org1", "Acme", some .free, some 5, some 3, 0, 0⟩] ∧
      getMyCompanyContext (some ⟨99, "u99"⟩) sampleDB "org1" =
        .ok (some ⟨1, "Acme", .member, some 5, some 3⟩) :=
  ⟨by decide,
    (getMyCompanyContext_spec sampleDB "org1" ⟨99, "u99"⟩
        ⟨1, "org1", "Acme", some .free, some 5, some 3, 0, 0⟩).2.2
      (by decide) (by decide)⟩

/-- C10: for an authenticated caller who has a membership row in the matched
company, `getMyCompanyContext` reports that row's stored role with no
condition on the membership status — a pending or removed member is still
shown the stored role. -/
theorem getMyCompanyContext_role_ignores_status (db : DB) (org : String)
    (u : User) (c : Company) (m : Membership)
    (hc : companiesByOrg db org = [c])
    (hm : membersByPair db c._id u._id = [m]) :
    getMyCompanyContext (some u) db org =
      .ok (some { companyId := c._id, companyName := c.name, role := m.role,
                  seatLimit := c.seatLimit, jobLimit := c.jobLimit }) := by
  unfold getMyCompanyContext getViewerUser
  rw [hc]
  simp only [uniqueResult]
  rw [hm]
  rfl

/-- Concrete-input witness for the preceding theorem. -/
theorem getMyCompanyContext_role_ignores_status_witness :
    companiesByOrg pendingDB "orgp" = [⟨1, "orgp", "PendingCo", none, none, none, 0, 0⟩] ∧
      membersByPair pendingDB 1 30 = [⟨1, 30, .admin, .pending, 0, 0⟩] ∧
      getMyCompanyContext (some ⟨30, "u30"⟩) pendingDB "orgp" =
        .ok (some ⟨1, "PendingCo", .admin, none, none⟩) :=
  ⟨by decide, by decide,
    getMyCompanyContext_role_ignores_status pendingDB "orgp" ⟨30, "u30"⟩
      ⟨1, "orgp", "PendingCo", none, none, none, 0, 0⟩
      ⟨1, 30, .admin, .pending, 0, 0⟩ (by decide) (by decide)⟩

/-- C7: when the caller's membership in the company has status "pending",
`getMyCompanyUsage` fails with the AccessDenied error; the result is the
same error for every possible state of the jobs collection, so no job scan
influences the outcome and no count structure is produced. -/
theorem getMyCompanyUsage_pending_denied (u : User) (db : DB) (companyId : Nat)
    (m : Membership) (hm : membersByPair db companyId u._id = [m])
    (hs : m.status = .pending) :
    getMyCompanyUsage (some u) db companyId = .error .accessDenied ∧
    (∀ jobs', getMyCompanyUsage (some u) { db with jobs := jobs' } companyId =
        .error .accessDenied) := by
  have key : ∀ db' : DB, db'.companyMembers = db.companyMembers →
      getMyCompanyUsage (some u) db' companyId = .error .accessDenied := by
    intro db' hmm
    have hm' : membersByPair db' companyId u._id = [m] := by
      unfold membersByPair
      rw [hmm]
      exact hm
    have hram : requireActiveMembership db' companyId u._id = .error .accessDenied :=
      requireActiveMembership_of_single_not_active db' companyId u._id m hm'
        (by rw [hs]; intro hx; cases hx)
    unfold getMyCompanyUsage requireViewerUser
    simp only []
    rw [hram]
  exact ⟨key db rfl, fun jobs' => key { db with jobs := jobs' } rfl⟩

/-- Concrete-input witness for the preceding theorem. -/
theorem getMyCompanyUsage_pending_denied_witness :
    membersByPair pendingDB 1 30 = [⟨1, 30, .admin, .pending, 0, 0⟩] ∧
      getMyCompanyUsage (some ⟨30, "u30"⟩) pendingDB 1 = .error .accessDenied :=
  ⟨by decide,
    (getMyCompanyUsage_pending_denied ⟨30, "u30"⟩ pendingDB 1
        ⟨1, 30, .admin, .pending, 0, 0⟩ (by decide) rfl).1⟩

/-- C8: whenever the caller is an authenticated user whose
`requireActiveMembership` check succeeds, `getMyCompanyUsage` returns
exactly the count structure computed by `getCompanyUsage`. -/
theorem getMyCompanyUsage_refines (u : User) (db : DB) (companyId : Nat)
    (m : Membership)
    (h : requireActiveMembership db companyId u._id = .ok m) :
    getMyCompanyUsage (some u) db companyId = .ok (getCompanyUsage db companyId) := by
  unfold getMyCompanyUsage requireViewerUser getCompanyUsage
  simp only []
  rw [h]
  cases hj : db.jobs <;> simp only [hj]

/-- Concrete-input witness for the preceding theorem. -/
theorem getMyCompanyUsage_refines_witness :
    getMyCompanyUsage (some ⟨10, "u10"⟩) sampleDB 1 =
      .ok (getCompanyUsage sampleDB 1) :=
  getMyCompanyUsage_refines ⟨10, "u10"⟩ sampleDB 1
    ⟨1, 10, .owner, .active, 0, 0⟩ rfl

/-- C6: if a single company row matches the `clerkOrgId` (and document ids
identify rows uniquely), `syncCompanyPlan` rewrites only that row's plan,
seatLimit, jobLimit and updatedAt fields, leaving its other fields and every
other row unchanged; if no row matches, it appends a fresh row with an empty
name and `createdAt = updatedAt = now`, all other rows unchanged. -/
theorem syncCompanyPlan_frame (db : DB) (org : String) (p : Plan) (s j t : Int)
    (c : Company) :
    (companiesByOrg db org = [c] → (∀ x ∈ db.companies, x._id = c._id → x = c) →
      syncCompanyPlan db org p s j t = .ok { db with
        companies := db.companies.map (fun x =>
          if x = c then
            { x with plan := some p
                     seatLimit := some s
                     jobLimit := some j
                     updatedAt := t }
          else x) }) ∧
    (companiesByOrg db org = [] →
      syncCompanyPlan db org p s j t = .ok { db with
        companies := db.companies ++
          [{ _id := db.nextId
             clerkOrgId := org
             name := ""
             plan := some p
             seatLimit := some s
             jobLimit := some j
             createdAt := t
             updatedAt := t }]
        nextId := db.nextId + 1 }) := by
  constructor
  · intro hc hkey
    rw [syncCompanyPlan_patch db org p s j t c hc]
    have hmap : db.companies.map (fun x =>
        if x._id == c._id then
          { x with plan := some p
                   seatLimit := some s
                   jobLimit := some j
                   updatedAt := t }
        else x) = db.companies.map (fun x =>
        if x = c then
          { x with plan := some p
                   seatLimit := some s
                   jobLimit := some j
                   updatedAt := t }
        else x) := by
      apply List.map_congr_left
      intro x hx
      by_cases hid : x._id = c._id
      · rw [if_pos (by simpa using hid), if_pos (hkey x hx hid)]
      · rw [if_neg (by simpa using hid),
          if_neg (fun hxc => hid (by rw [hxc]))]
    rw [hmap]
  · exact syncCompanyPlan_insert db org p s j t

/-- Concrete-input witness for the preceding theorem. -/
theorem syncCompanyPlan_frame_witness :
    syncCompanyPlan sampleDB "org1" .growth 7 8 999 = .ok { sampleDB with
      companies := sampleDB.companies.map (fun x =>
        if x = ⟨1, "org1", "Acme", some .free, some 5, some 3, 0, 0⟩ then
          { x with plan := some .growth
                   seatLimit := some 7
                   jobLimit := some 8
                   updatedAt := 999 }
        else x) } :=
  (syncCompanyPlan_frame sampleDB "org1" .growth 7 8 999
      ⟨1, "org1", "Acme", some .free, some 5, some 3, 0, 0⟩).1
    (by decide) (by decide)

/-- C5: `syncCompanyPlan` is idempotent for a new org: two invocations with
identical plan, seatLimit and jobLimit leave exactly one company row for
that `clerkOrgId`, carrying exactly those values. -/
theorem syncCompanyPlan_idempotent (db : DB) (org : String) (p : Plan)
    (s j t1 t2 : Int) (h : companiesByOrg db org = []) :
    ∃ db1 db2,
      syncCompanyPlan db org p s j t1 = .ok db1 ∧
      syncCompanyPlan db1 org p s j t2 = .ok db2 ∧
      ∃ c, companiesByOrg db2 org = [c] ∧
        c.plan = some p ∧ c.seatLimit = some s ∧ c.jobLimit = some j := by
  have hf1 : companiesByOrg { db with
      companies := db.companies ++
        [⟨db.nextId, org, "", some p, some s, some j, t1, t1⟩]
      nextId := db.nextId + 1 } org =
      [⟨db.nextId, org, "", some p, some s, some j, t1, t1⟩] := by
    show (db.companies ++
        [(⟨db.nextId, org, "", some p, some s, some j, t1, t1⟩ : Company)]).filter
        (fun c => c.clerkOrgId == org) = _
    rw [List.filter_append]
    have h0 : db.companies.filter (fun c => c.clerkOrgId == org) = [] := h
    rw [h0]
    simp
  refine ⟨_, _, syncCompanyPlan_insert db org p s j t1 h,
    syncCompanyPlan_patch _ org p s j t2
      ⟨db.nextId, org, "", some p, some s, some j, t1, t1⟩ hf1, ?_⟩
  refine ⟨⟨db.nextId, org, "", some p, some s, some j, t1, t2⟩, ?_, rfl, rfl, rfl⟩
  have hg : ∀ x : Company,
      ((if x._id == db.nextId then
          { x with plan := some p
                   seatLimit := some s
                   jobLimit := some j
                   updatedAt := t2 }
        else x) : Company).clerkOrgId = x.clerkOrgId := by
    intro x
    by_cases hid : (x._id == db.nextId) = true
    · rw [if_pos hid]
    · rw [if_neg hid]
  show ((db.companies ++
      [(⟨db.nextId, org, "", some p, some s, some j, t1, t1⟩ : Company)]).map (fun x =>
        if x._id == db.nextId then
          { x with plan := some p
                   seatLimit := some s
                   jobLimit := some j
                   updatedAt := t2 }
        else x)).filter (fun c => c.clerkOrgId == org) =
    [⟨db.nextId, org, "", some p, some s, some j, t1, t2⟩]
  rw [filter_org_map _ org _ hg]
  have h0 : (db.companies ++
      [(⟨db.nextId, org, "", some p, some s, some j, t1, t1⟩ : Company)]).filter
      (fun c => c.clerkOrgId == org) =
      [(⟨db.nextId, org, "", some p, some s, some j, t1, t1⟩ : Company)] := hf1
  rw [h0]
  simp

/-- Concrete-input witness for the preceding theorem. -/
theorem syncCompanyPlan_idempotent_witness :
    companiesByOrg sampleDB "neworg" = [] ∧
      ∃ db1 db2,
        syncCompanyPlan sampleDB "neworg" .starter 10 20 111 = .ok db1 ∧
        syncCompanyPlan db1 "neworg" .starter 10 20 222 = .ok db2 ∧
        ∃ c, companiesByOrg db2 "neworg" = [c] ∧
          c.plan = some .starter ∧ c.seatLimit = some 10 ∧ c.jobLimit = some 20 :=
  ⟨by decide,
    syncCompanyPlan_idempotent sampleDB "neworg" .starter 10 20 111 222
      (by decide)⟩

end JobsApp
